import Mathlib

/-!
Verification development for the UBS OMS backend (src/main.py).

The Python source is shallowly embedded: every pure fragment becomes an
executable Lean definition, Python regex searches become hand-rolled
left-to-right scanners with the same leftmost-match semantics, machine
floats of the source (prices, confidences) are modelled as rationals, and
the Azure OpenAI chat-completion boundary is modelled as an explicit
`Except String String` oracle argument (`Except.error` = transport failure,
`Except.ok` = the model's response text).  Python string operations are
modelled for the ASCII range (the source only manipulates ASCII keywords).
-/

/-! ## Python string primitives -/

/-- Whitespace set of Python `str.strip()` and regex `\s`, ASCII range. -/
def pyWs (c : Char) : Bool :=
  c.toNat == 32 || c.toNat == 9 || c.toNat == 10 || c.toNat == 13 ||
  c.toNat == 11 || c.toNat == 12

/-- Drop trailing `pyWs` whitespace. -/
def trimRev (l : List Char) : List Char := (l.reverse.dropWhile pyWs).reverse

/-- Model of Python `str.strip()` on a character list: drop leading and
trailing whitespace. -/
def pyStripL (l : List Char) : List Char := trimRev (l.dropWhile pyWs)

/-- Model of Python `str.strip()`. -/
def pyStrip (s : String) : String := ⟨pyStripL s.data⟩

/-- Model of Python `str.lower()` (ASCII range), one character. -/
def pyLowerChar (c : Char) : Char := Char.toLower c

/-- Model of Python `str.upper()` (ASCII range), one character. -/
def pyUpperChar (c : Char) : Char := Char.toUpper c

/-- Model of Python `str.lower()` (ASCII range). -/
def pyLower (s : String) : String := ⟨s.data.map pyLowerChar⟩

/-- Model of Python `str.upper()` (ASCII range). -/
def pyUpper (s : String) : String := ⟨s.data.map pyUpperChar⟩

/-- Model of Python `needle in hay` on lists: `needle` occurs contiguously. -/
def hasSubstr (needle : List Char) : List Char → Bool
  | [] => needle.isEmpty
  | c :: t => needle.isPrefixOf (c :: t) || hasSubstr needle t

/-- Model of Python `needle in hay` for strings. -/
def pyContains (hay needle : String) : Bool := hasSubstr needle.data hay.data

/-- Model of Python `s.startswith(pre)`. -/
def pyStartsWith (s pre : String) : Bool := pre.data.isPrefixOf s.data

/-- Model of Python `s.capitalize()`: first character upper-cased, the rest
lower-cased. -/
def pyCapitalize (s : String) : String :=
  match s.data with
  | [] => ""
  | c :: t => ⟨pyUpperChar c :: t.map pyLowerChar⟩

/-- Step 1 of the trader-text pipeline as a pure text function:
`state["input_text"].strip().lower()` (src/main.py line 139). -/
def normalizeText (s : String) : String := pyLower (pyStrip s)

/-! ## Regex scanners

Python `re.search` scans for the leftmost match; each pattern of the source
is modelled by a matcher that tries to match at the head of a suffix, and
`scanSearch` tries every suffix left to right. -/

/-- Leftmost-match search: try the matcher at every start position. -/
def scanSearch {α : Type} (f : List Char → Option α) : List Char → Option α
  | [] => f []
  | c :: t =>
    match f (c :: t) with
    | some r => some r
    | none => scanSearch f t

/-- Greedy `\d+`: maximal nonempty run of ASCII digits, returning the run
and the rest. -/
def takeDigits1 (cs : List Char) : Option (List Char × List Char) :=
  let ds := cs.takeWhile Char.isDigit
  if ds.isEmpty then none else some (ds, cs.drop ds.length)

/-- Match a literal character sequence, returning the rest on success. -/
def matchLit : List Char → List Char → Option (List Char)
  | [], cs => some cs
  | _ :: _, [] => none
  | l :: ls, c :: cs => if c == l then matchLit ls cs else none

/-- Match a literal (given lower-cased) case-insensitively. -/
def matchLitCI : List Char → List Char → Option (List Char)
  | [], cs => some cs
  | _ :: _, [] => none
  | l :: ls, c :: cs => if pyLowerChar c == l then matchLitCI ls cs else none

/-- Nat value of a digit run. -/
def digitsToNat (ds : List Char) : Nat :=
  ds.foldl (fun acc c => acc * 10 + (c.toNat - 48)) 0

/-- Word character of regex `\w`, ASCII range. -/
def isWordChar (c : Char) : Bool := c.isAlphanum || c == '_'

/-! ## JSON values and a model of `json.loads`

`json.loads` of the Python standard library is modelled by a recursive
descent parser over the JSON grammar (objects, arrays, strings with the
standard escapes, numbers with fraction/exponent, `true`/`false`/`null`),
keeping Python's int/float distinction for numbers.  Non-standard inputs
accepted by CPython (`NaN`, `Infinity`) are not modelled; no claim depends
on them. -/

/-- JSON values as produced by `json.loads`. -/
inductive JVal where
  | null : JVal
  | bool (b : Bool) : JVal
  | jint (n : Int) : JVal
  | jfloat (q : ℚ) : JVal
  | str (s : String) : JVal
  | arr (xs : List JVal) : JVal
  | obj (kvs : List (String × JVal)) : JVal

/-- Model of Python dict lookup `d.get(k)` on a key/value list decoded from
JSON (later duplicate keys override earlier ones, as in `json.loads`). -/
def objGet (kvs : List (String × JVal)) (k : String) : Option JVal :=
  kvs.reverse.lookup k

/-- Model of Python truthiness `bool(v)` for JSON-decoded values. -/
def jvalTruthy : JVal → Bool
  | .null => false
  | .bool b => b
  | .jint n => n != 0
  | .jfloat q => q != 0
  | .str s => s != ""
  | .arr xs => !xs.isEmpty
  | .obj kvs => !kvs.isEmpty

/-- JSON whitespace (the set skipped between tokens by `json.loads`). -/
def jsonWs (c : Char) : Bool :=
  c.toNat == 32 || c.toNat == 9 || c.toNat == 10 || c.toNat == 13

/-- Skip JSON whitespace. -/
def skipWsJ (cs : List Char) : List Char := cs.dropWhile jsonWs

/-- Hex digit value. -/
def parseHexDigit (c : Char) : Option Nat :=
  if 48 ≤ c.toNat ∧ c.toNat ≤ 57 then some (c.toNat - 48)
  else if 97 ≤ c.toNat ∧ c.toNat ≤ 102 then some (c.toNat - 87)
  else if 65 ≤ c.toNat ∧ c.toNat ≤ 70 then some (c.toNat - 55)
  else none

/-- Parse the body of a JSON string (after the opening quote), with the
standard escapes; fuelled for termination. -/
def parseStrBody : Nat → List Char → Option (List Char × List Char)
  | 0, _ => none
  | _ + 1, [] => none
  | f + 1, c :: cs =>
    if c == '"' then some ([], cs)
    else if c == '\\' then
      match cs with
      | [] => none
      | e :: cs2 =>
        let esc : Option (Char × List Char) :=
          if e == '"' then some ('"', cs2)
          else if e == '\\' then some ('\\', cs2)
          else if e == '/' then some ('/', cs2)
          else if e == 'n' then some ('\n', cs2)
          else if e == 't' then some ('\t', cs2)
          else if e == 'r' then some ('\r', cs2)
          else if e == 'b' then some (Char.ofNat 8, cs2)
          else if e == 'f' then some (Char.ofNat 12, cs2)
          else if e == 'u' then
            match cs2 with
            | h1 :: h2 :: h3 :: h4 :: cs3 =>
              match parseHexDigit h1, parseHexDigit h2, parseHexDigit h3, parseHexDigit h4 with
              | some a, some b, some c3, some d =>
                some (Char.ofNat (a * 4096 + b * 256 + c3 * 16 + d), cs3)
              | _, _, _, _ => none
            | _ => none
          else none
        match esc with
        | some (ch, rest) => (parseStrBody f rest).map (fun p => (ch :: p.1, p.2))
        | none => none
    else (parseStrBody f cs).map (fun p => (c :: p.1, p.2))

/-- Parse an optional JSON exponent part, returning the exponent (0 when
absent), whether it was present, and the rest. -/
def parseExpPart (cs : List Char) : Option (Int × Bool × List Char) :=
  match cs with
  | 'e' :: r | 'E' :: r =>
    let (neg, r2) := match r with
      | '-' :: r2 => (true, r2)
      | '+' :: r2 => (false, r2)
      | _ => (false, r)
    match takeDigits1 r2 with
    | none => none
    | some (ds, r3) =>
      some (if neg then -(digitsToNat ds : Int) else (digitsToNat ds : Int), true, r3)
  | _ => some (0, false, cs)

/-- Parse a JSON number (leading-zero rule included); ints decode to
`JVal.jint`, anything with a fraction or exponent to `JVal.jfloat`. -/
def parseNumber (cs : List Char) : Option (JVal × List Char) :=
  let (neg, cs1) := match cs with
    | '-' :: r => (true, r)
    | _ => (false, cs)
  match takeDigits1 cs1 with
  | none => none
  | some (ds, cs2) =>
    if 1 < ds.length ∧ ds.head? = some '0' then none
    else
      let (fs, hasFrac, cs3) : List Char × Bool × List Char :=
        match cs2 with
        | '.' :: r =>
          match takeDigits1 r with
          | some (fs, r2) => (fs, true, r2)
          | none => ([], false, [])
        | _ => ([], false, cs2)
      if hasFrac = false ∧ cs2.head? = some '.' then none
      else
        match parseExpPart cs3 with
        | none => none
        | some (e, hasExp, cs4) =>
          let base : ℚ := (digitsToNat ds : ℚ) + (digitsToNat fs : ℚ) / ((10 : ℚ) ^ fs.length)
          let scaled : ℚ := if 0 ≤ e then base * (10 : ℚ) ^ e.toNat else base / (10 : ℚ) ^ (-e).toNat
          let signed : ℚ := if neg then -scaled else scaled
          if hasFrac || hasExp then some (.jfloat signed, cs4)
          else some (.jint (if neg then -(digitsToNat ds : Int) else (digitsToNat ds : Int)), cs4)

mutual

/-- Parse one JSON value (fuelled). -/
def parseValue : Nat → List Char → Option (JVal × List Char)
  | 0, _ => none
  | f + 1, cs0 =>
    match skipWsJ cs0 with
    | [] => none
    | c :: rest =>
      if c == 'n' then (matchLit "ull".data rest).map (fun r => (.null, r))
      else if c == 't' then (matchLit "rue".data rest).map (fun r => (.bool true, r))
      else if c == 'f' then (matchLit "alse".data rest).map (fun r => (.bool false, r))
      else if c == '"' then
        (parseStrBody (rest.length + 1) rest).map (fun p => (.str ⟨p.1⟩, p.2))
      else if c == '\x7b' then
        match skipWsJ rest with
        | '\x7d' :: r2 => some (.obj [], r2)
        | r1 => parseObjRest f r1 []
      else if c == '[' then
        match skipWsJ rest with
        | ']' :: r2 => some (.arr [], r2)
        | _ => parseArrRest f rest []
      else parseNumber (c :: rest)

/-- Parse the members of a JSON object, positioned at a key. -/
def parseObjRest : Nat → List Char → List (String × JVal) → Option (JVal × List Char)
  | 0, _, _ => none
  | f + 1, cs, acc =>
    match cs with
    | '"' :: r =>
      match parseStrBody (r.length + 1) r with
      | none => none
      | some (kl, r2) =>
        match skipWsJ r2 with
        | ':' :: r3 =>
          match parseValue f r3 with
          | none => none
          | some (v, r4) =>
            match skipWsJ r4 with
            | ',' :: r5 => parseObjRest f (skipWsJ r5) (acc ++ [(⟨kl⟩, v)])
            | '\x7d' :: r5 => some (.obj (acc ++ [(⟨kl⟩, v)]), r5)
            | _ => none
        | _ => none
    | _ => none

/-- Parse the elements of a JSON array, positioned at an element. -/
def parseArrRest : Nat → List Char → List JVal → Option (JVal × List Char)
  | 0, _, _ => none
  | f + 1, cs, acc =>
    match parseValue f cs with
    | none => none
    | some (v, r) =>
      match skipWsJ r with
      | ',' :: r2 => parseArrRest f r2 (acc ++ [v])
      | ']' :: r2 => some (.arr (acc ++ [v]), r2)
      | _ => none

end

/-- Model of `json.loads`: parse one value and require only whitespace to
remain (CPython raises "Extra data" otherwise). -/
def jsonLoads (s : String) : Option JVal :=
  match parseValue (s.length + 1) s.data with
  | some (v, rest) => if (skipWsJ rest).isEmpty then some v else none
  | none => none

/-! ## The JSON-span regex `\{.*\}` (re.DOTALL)

`re.search(r'\{.*\}', result, re.DOTALL)` matches from the first opening
brace to the last closing brace of the whole text (greedy `.*` with DOTALL),
provided some closing brace follows the first opening brace. -/

/-- Index of the first character satisfying `p`. -/
def firstIdx (p : Char → Bool) : List Char → Option Nat
  | [] => none
  | c :: t => if p c then some 0 else (firstIdx p t).map (· + 1)

/-- Span matched by `re.search(r'\{.*\}', ·, re.DOTALL)` on a character
list: from the first opening brace to the last closing brace. -/
def extractJsonSpanL (cs : List Char) : Option (List Char) :=
  match firstIdx (· == '\x7b') cs with
  | none => none
  | some i =>
    match firstIdx (· == '\x7d') cs.reverse with
    | none => none
    | some jr =>
      let j := cs.length - 1 - jr
      if i < j then some ((cs.drop i).take (j - i + 1)) else none

/-- Span matched by `re.search(r'\{.*\}', s, re.DOTALL)` (src/main.py
lines 276 and 398). -/
def extractJsonSpan (s : String) : Option String :=
  (extractJsonSpanL s.data).map (fun l => ⟨l⟩)

/-- Walk of a brace-balanced span: depth counter over the characters. -/
def balGo : List Char → Nat → List Char → Option (List Char)
  | [], _, _ => none
  | c :: t, d, acc =>
    if c == '\x7b' then balGo t (d + 1) (c :: acc)
    else if c == '\x7d' then
      if d == 1 then some (c :: acc).reverse else balGo t (d - 1) (c :: acc)
    else balGo t d (c :: acc)

/-- Modelled from the spec: "locating the first balanced `{...}` span" —
the span from the first opening brace to its matching closing brace.  This
definition follows the spec's words, for comparison against
`extractJsonSpan`, which embeds the source's regex. -/
def specFirstBalancedSpan (s : String) : Option String :=
  (balGo (s.data.dropWhile (fun c => c != '\x7b')) 0 []).map (fun l => ⟨l⟩)

/-! ## Securities catalog and order form data model -/

/-- Security record of the mock catalog (prices as rationals). -/
structure SecurityInfo where
  symbol : String
  market : String
  currency : String
  name : String
  price : ℚ
deriving DecidableEq

/-- The six-entry mock securities catalog, in insertion order
(src/main.py lines 114-121). -/
def SECURITIES_DB : List (String × SecurityInfo) :=
  [("AAPL", ⟨"AAPL", "NASDAQ", "USD", "Apple Inc.", 178.50⟩),
   ("GOOGL", ⟨"GOOGL", "NASDAQ", "USD", "Alphabet Inc.", 140.25⟩),
   ("MSFT", ⟨"MSFT", "NASDAQ", "USD", "Microsoft Corporation", 378.91⟩),
   ("TSLA", ⟨"TSLA", "NASDAQ", "USD", "Tesla Inc.", 242.84⟩),
   ("NOVN", ⟨"NOVN", "SIX", "CHF", "Novartis AG", 95.20⟩),
   ("NESN", ⟨"NESN", "SIX", "CHF", "Nestlé S.A.", 87.45⟩)]

/-- Model of `symbol in SECURITIES_DB` / `SECURITIES_DB[symbol]`. -/
def dbLookup (sym : String) : Option SecurityInfo := SECURITIES_DB.lookup sym

/-- Time-in-force enumeration. -/
inductive TimeInForce where
  | DAY | GTD | GTC | FOK
deriving DecidableEq

/-- Contact-method enumeration. -/
inductive ContactMethod where
  | phone | email | meeting | portal
deriving DecidableEq

/-- The order form produced by both order parsers. -/
structure OrderFormModel where
  security : Option SecurityInfo
  contact_method : ContactMethod
  quantity : Option Int
  price : Option ℚ
  time_in_force : TimeInForce
  gtd_date : Option String
  trader_text : String
deriving DecidableEq

/-! ## Rule-based order parser (`parse_natural_language_order_fallback`) -/

/-- Pattern `(\d+)\s*shares?` at a position, capturing group 1. -/
def qtySharesAt (cs : List Char) : Option Nat :=
  match takeDigits1 cs with
  | none => none
  | some (ds, r) =>
    match matchLit "share".data (r.dropWhile pyWs) with
    | some _ => some (digitsToNat ds)
    | none => none

/-- Pattern `(\d+)\s*units?` at a position. -/
def qtyUnitsAt (cs : List Char) : Option Nat :=
  match takeDigits1 cs with
  | none => none
  | some (ds, r) =>
    match matchLit "unit".data (r.dropWhile pyWs) with
    | some _ => some (digitsToNat ds)
    | none => none

/-- Pattern `<kw>\s+(\d+)` at a position (for `buy`/`sell`). -/
def kwNumAt (kw : List Char) (cs : List Char) : Option Nat :=
  match matchLit kw cs with
  | none => none
  | some r =>
    match r with
    | c :: t =>
      if pyWs c then (takeDigits1 (t.dropWhile pyWs)).map (fun p => digitsToNat p.1)
      else none
    | [] => none

/-- Pattern `(\d+)\s+of` at a position. -/
def numOfAt (cs : List Char) : Option Nat :=
  match takeDigits1 cs with
  | none => none
  | some (ds, r) =>
    match r with
    | c :: t =>
      if pyWs c then
        match matchLit "of".data (t.dropWhile pyWs) with
        | some _ => some (digitsToNat ds)
        | none => none
      else none
    | [] => none

/-- Ordered quantity patterns, first pattern with a match anywhere wins
(src/main.py lines 438-449). -/
def extractQuantity (cs : List Char) : Option Int :=
  match scanSearch qtySharesAt cs with
  | some n => some (n : Int)
  | none =>
    match scanSearch qtyUnitsAt cs with
    | some n => some (n : Int)
    | none =>
      match scanSearch (kwNumAt "buy".data) cs with
      | some n => some (n : Int)
      | none =>
        match scanSearch (kwNumAt "sell".data) cs with
        | some n => some (n : Int)
        | none => (scanSearch numOfAt cs).map (fun n => (n : Int))

/-- Decimal capture `\d+\.?\d*` interpreted by Python `float`. -/
def qOfParts (ds fs : List Char) : ℚ :=
  (digitsToNat ds : ℚ) + (digitsToNat fs : ℚ) / ((10 : ℚ) ^ fs.length)

/-- Pattern `<kw>\s+\$?(\d+\.?\d*)` at a position (for `at`/`price`/`limit`). -/
def priceAfterAt (kw : List Char) (cs : List Char) : Option ℚ :=
  match matchLit kw cs with
  | none => none
  | some r =>
    match r with
    | c :: t =>
      if pyWs c then
        let r2 := t.dropWhile pyWs
        let r3 := match r2 with
          | '$' :: t2 => t2
          | _ => r2
        match takeDigits1 r3 with
        | none => none
        | some (ds, r4) =>
          match r4 with
          | '.' :: r5 => some (qOfParts ds (r5.takeWhile Char.isDigit))
          | _ => some (qOfParts ds [])
      else none
    | [] => none

/-- Ordered price patterns (src/main.py lines 452-462). -/
def extractPrice (cs : List Char) : Option ℚ :=
  match scanSearch (priceAfterAt "at".data) cs with
  | some q => some q
  | none =>
    match scanSearch (priceAfterAt "price".data) cs with
    | some q => some q
    | none => scanSearch (priceAfterAt "limit".data) cs

/-- First catalog entry whose symbol or full name occurs in the lower-cased
text (src/main.py lines 430-434). -/
def findSecurity (text_lower : String) : Option SecurityInfo :=
  (SECURITIES_DB.find? (fun p =>
    pyContains text_lower (pyLower p.1) || pyContains text_lower (pyLower p.2.name))).map
    (fun p => p.2)

/-- Rule-based order parsing (src/main.py lines 423-489). -/
def parse_natural_language_order_fallback (text : String) : OrderFormModel :=
  let text_lower := pyLower text
  let security := findSecurity text_lower
  let quantity := extractQuantity text_lower.data
  let price := extractPrice text_lower.data
  let time_in_force : TimeInForce :=
    if pyContains text_lower "gtc" || pyContains text_lower "good til cancel" then .GTC
    else if pyContains text_lower "gtd" || pyContains text_lower "good til date" then .GTD
    else if pyContains text_lower "fok" || pyContains text_lower "fill or kill" then .FOK
    else .DAY
  let contact_method : ContactMethod :=
    if pyContains text_lower "email" then .email
    else if pyContains text_lower "meeting" || pyContains text_lower "in person" then .meeting
    else if pyContains text_lower "portal" || pyContains text_lower "online" then .portal
    else .phone
  ⟨security, contact_method, quantity, price, time_in_force, none, ""⟩

/-! ## Model-backed order parser (`parse_natural_language_order_with_llm`) -/

/-- Extract and decode the JSON object from a model response
(src/main.py lines 397-400): strip, locate the `\{.*\}` span, `json.loads`. -/
def decodeOrderResponse (raw : String) : Option (List (String × JVal)) :=
  match extractJsonSpan (pyStrip raw) with
  | none => none
  | some span =>
    match jsonLoads span with
    | some (.obj kvs) => some kvs
    | _ => none

/-- Security resolution from the parsed JSON (src/main.py lines 403-407):
`if parsed.get("symbol"): symbol = parsed["symbol"].upper(); ...`.
The outer `none` models a raised exception (`.upper()` on a non-string). -/
def secOfSymbol (v : Option JVal) : Option (Option SecurityInfo) :=
  match v with
  | none => some none
  | some jv =>
    if jvalTruthy jv then
      match jv with
      | .str s => some (dbLookup (pyUpper s))
      | _ => none
    else some none

/-- Model of Python `int(s)` on a string (sign and digits). -/
def parseIntString (s : String) : Option Int :=
  match s.data with
  | '-' :: ds =>
    if !ds.isEmpty && ds.all Char.isDigit then some (-(digitsToNat ds : Int)) else none
  | '+' :: ds =>
    if !ds.isEmpty && ds.all Char.isDigit then some (digitsToNat ds : Int) else none
  | ds =>
    if !ds.isEmpty && ds.all Char.isDigit then some (digitsToNat ds : Int) else none

/-- Model of Python `float(s)` on a string (sign, digits, optional
fraction; exponents are not needed by any claim). -/
def parseFloatString (s : String) : Option ℚ :=
  let core : List Char → Option ℚ := fun ds0 =>
    match takeDigits1 ds0 with
    | none => none
    | some (ds, r) =>
      match r with
      | [] => some (qOfParts ds [])
      | '.' :: r2 =>
        if r2.all Char.isDigit then some (qOfParts ds r2) else none
      | _ => none
  match s.data with
  | '-' :: ds => (core ds).map Neg.neg
  | '+' :: ds => core ds
  | ds => core ds

/-- Pydantic coercion to `Optional[int]` (lax mode): ints pass, integral
floats pass, numeric strings pass; anything else raises. -/
def coerceOptInt (v : Option JVal) : Option (Option Int) :=
  match v with
  | none => some none
  | some .null => some none
  | some (.jint n) => some (some n)
  | some (.jfloat q) => if q.den = 1 then some (some q.num) else none
  | some (.str s) => (parseIntString s).map some
  | some _ => none

/-- Pydantic coercion to `Optional[float]` (lax mode). -/
def coerceOptFloat (v : Option JVal) : Option (Option ℚ) :=
  match v with
  | none => some none
  | some .null => some none
  | some (.jint n) => some (some (n : ℚ))
  | some (.jfloat q) => some (some q)
  | some (.str s) => (parseFloatString s).map some
  | some _ => none

/-- Model of `TimeInForce(parsed.get("time_in_force", "DAY"))`: a Python
`Enum` call raises `ValueError` on any value other than the enum values. -/
def coerceTif (v : Option JVal) : Option TimeInForce :=
  match v.getD (.str "DAY") with
  | .str "DAY" => some .DAY
  | .str "GTD" => some .GTD
  | .str "GTC" => some .GTC
  | .str "FOK" => some .FOK
  | _ => none

/-- Model of `ContactMethod(parsed.get("contact_method", "phone"))`. -/
def coerceContact (v : Option JVal) : Option ContactMethod :=
  match v.getD (.str "phone") with
  | .str "phone" => some .phone
  | .str "email" => some .email
  | .str "meeting" => some .meeting
  | .str "portal" => some .portal
  | _ => none

/-- Mapping of the parsed JSON object to an `OrderFormModel`
(src/main.py lines 402-416); `none` models any raised exception, which the
caller turns into a full fallback. -/
def buildOrderForm (kvs : List (String × JVal)) : Option OrderFormModel :=
  match secOfSymbol (objGet kvs "symbol") with
  | none => none
  | some security =>
    match coerceOptInt (objGet kvs "quantity") with
    | none => none
    | some quantity =>
      match coerceOptFloat (objGet kvs "price") with
      | none => none
      | some price =>
        match coerceTif (objGet kvs "time_in_force") with
        | none => none
        | some tif =>
          match coerceContact (objGet kvs "contact_method") with
          | none => none
          | some cm => some ⟨security, cm, quantity, price, tif, none, ""⟩

/-- Model-backed order parsing (src/main.py lines 350-421): on any
transport failure, decode failure or mapping exception the entire result
falls back to the rule-based parser on the same text. -/
def parse_natural_language_order_with_llm (available : Bool) (text : String)
    (resp : Except String String) : OrderFormModel :=
  if !available then parse_natural_language_order_fallback text
  else
    match resp with
    | .error _ => parse_natural_language_order_fallback text
    | .ok raw =>
      match decodeOrderResponse raw with
      | some kvs =>
        match buildOrderForm kvs with
        | some form => form
        | none => parse_natural_language_order_fallback text
      | none => parse_natural_language_order_fallback text

/-! ## Trader-text pipeline (LangGraph workflow) -/

/-- Backend configuration and oracle responses for one pipeline run:
`available` is the `LLM_AVAILABLE` flag; the two `Except` fields model the
chat-completion calls of stages 2 and 3. -/
structure LlmCfg where
  available : Bool
  detectResp : Except String String
  extractResp : Except String String

/-- The `TraderTextState` TypedDict (src/main.py lines 127-135). -/
structure TraderTextState where
  input_text : String
  normalized_text : String
  detected_algo : Option String
  parameters : List (String × JVal)
  structured_output : String
  confidence : ℚ
  reasoning : String

/-- Initial state as built by the endpoint (src/main.py lines 593-601). -/
def initTraderState (text : String) : TraderTextState :=
  ⟨text, "", none, [], "", 0, ""⟩

/-- Step 1: normalize (src/main.py lines 137-141). -/
def normalize_input (st : TraderTextState) : TraderTextState :=
  { st with normalized_text := normalizeText st.input_text }

/-- Rule-based algorithm detection (src/main.py lines 147-158), first
match wins. -/
def detectRuleBased (text : String) : Option String :=
  if pyContains text "vwap" then some "vwap"
  else if pyContains text "twap" then some "twap"
  else if pyContains text "pov" || pyContains text "participation" then some "pov"
  else if pyContains text "aggressive" || pyContains text "urgent" ||
    pyContains text "shortfall" then some "implementation_shortfall"
  else none

/-- Match of `ALGORITHM:\s*(\w+)` (re.IGNORECASE) at one position,
returning group 1. -/
def algoTokenAt (cs : List Char) : Option String :=
  match matchLitCI "algorithm:".data cs with
  | none => none
  | some r =>
    let w := (r.dropWhile pyWs).takeWhile isWordChar
    if w.isEmpty then none else some ⟨w⟩

/-- Leftmost match of `ALGORITHM:\s*(\w+)` (src/main.py line 193). -/
def captureAlgorithmToken (cs : List Char) : Option String :=
  scanSearch algoTokenAt cs

/-- Match of `REASON:\s*(.+)` (re.IGNORECASE|re.DOTALL) at one position.
The source applies `.strip()` to group 1, so the strip is fused here (the
greedy `\s*`/backtracking interplay is invisible after the strip). -/
def reasonAt (cs : List Char) : Option String :=
  match matchLitCI "reason:".data cs with
  | none => none
  | some r => if r.isEmpty then none else some (pyStrip ⟨r⟩)

/-- Leftmost match of `REASON:\s*(.+)`, stripped (src/main.py lines 194
and 202). -/
def captureReasonText (cs : List Char) : Option String :=
  scanSearch reasonAt cs

/-- The detected algorithm extracted from a model response (src/main.py
lines 190-200): the captured token lower-cased, with only the literal
token `none` mapped to `None`. -/
def llmAlgoOfResponse (raw : String) : Option String :=
  match captureAlgorithmToken (pyStrip raw).data with
  | some tok => if pyLower tok = "none" then none else some (pyLower tok)
  | none => none

/-- The reasoning extracted from a model response (src/main.py line 202). -/
def llmReasonOfResponse (raw : String) : String :=
  match captureReasonText (pyStrip raw).data with
  | some g => g
  | none => "LLM detection"

/-- Step 2: detect algorithm (src/main.py lines 143-209). -/
def detect_algorithm (cfg : LlmCfg) (st : TraderTextState) : TraderTextState :=
  if !cfg.available then
    { st with detected_algo := detectRuleBased st.normalized_text,
              reasoning := "Rule-based detection (LLM not available)" }
  else
    match cfg.detectResp with
    | .error e =>
      { st with detected_algo := none, reasoning := "Error: " ++ e }
    | .ok raw =>
      { st with detected_algo := llmAlgoOfResponse raw,
                reasoning := llmReasonOfResponse raw }

/-- Match of `(\d{1,2}):(\d{2})` at one position (greedy 1-2 digits with
backtracking), returning groups 1 and 2. -/
def hhmmAt (cs : List Char) : Option (String × String) :=
  match cs with
  | [] => none
  | d1 :: rest =>
    if d1.isDigit then
      let try2 : Option (String × String) :=
        match rest with
        | d2 :: ':' :: m1 :: m2 :: _ =>
          if d2.isDigit && m1.isDigit && m2.isDigit then
            some (⟨[d1, d2]⟩, ⟨[m1, m2]⟩)
          else none
        | _ => none
      match try2 with
      | some x => some x
      | none =>
        match rest with
        | ':' :: m1 :: m2 :: _ =>
          if m1.isDigit && m2.isDigit then some (⟨[d1]⟩, ⟨[m1, m2]⟩) else none
        | _ => none
    else none

/-- Match of `(\d+)\s*(hour|hr|minute|min)` at one position: the
alternation tries its branches left to right. -/
def durationAt (cs : List Char) : Option (String × String) :=
  match takeDigits1 cs with
  | none => none
  | some (ds, r) =>
    let r2 := r.dropWhile pyWs
    if (matchLit "hour".data r2).isSome then some (⟨ds⟩, "hour")
    else if (matchLit "hr".data r2).isSome then some (⟨ds⟩, "hr")
    else if (matchLit "minute".data r2).isSome then some (⟨ds⟩, "minute")
    else if (matchLit "min".data r2).isSome then some (⟨ds⟩, "min")
    else none

/-- Match of `(\d+)\s*%` at one position. -/
def pctAt (cs : List Char) : Option String :=
  match takeDigits1 cs with
  | none => none
  | some (ds, r) =>
    match r.dropWhile pyWs with
    | '%' :: _ => some ⟨ds⟩
    | _ => none

/-- Extract and decode the JSON object span from a stage-3 model response
(src/main.py lines 273-279). -/
def decodeParamsResponse (raw : String) : Option JVal :=
  match extractJsonSpan (pyStrip raw) with
  | none => none
  | some span => jsonLoads span

/-- Rule-based parameter extraction for a detected algorithm
(src/main.py lines 220-245). -/
def ruleParams (algo text : String) : List (String × JVal) :=
  if algo = "vwap" then
    [("end_time", .str (match scanSearch hhmmAt text.data with
        | some (h, m) => h ++ ":" ++ m
        | none => "16:00")),
     ("include_auctions", .bool (pyContains text "auction")),
     ("start_time", .str "09:30")]
  else if algo = "twap" then
    [("duration", .str (match scanSearch durationAt text.data with
        | some (n, u) => n ++ " " ++ u
        | none => "full day"))]
  else if algo = "pov" then
    [("participation_rate", .str (match scanSearch pctAt text.data with
        | some n => n ++ "%"
        | none => "10%"))]
  else if algo = "implementation_shortfall" then
    [("urgency", .str (if pyContains text "aggressive" || pyContains text "urgent"
        then "high" else "medium"))]
  else []

/-- The parameter mapping computed by stage 3 (src/main.py lines 211-288):
a falsy detected algorithm short-circuits to the empty mapping; otherwise
the rule-based patterns or the model response's decoded JSON object are
used, with every failure of the model path yielding the empty mapping. -/
def extractParamsOf (cfg : LlmCfg) (st : TraderTextState) : List (String × JVal) :=
  match st.detected_algo with
  | none => []
  | some algo =>
    if algo = "" then []
    else if !cfg.available then ruleParams algo st.normalized_text
    else
      match cfg.extractResp with
      | .error _ => []
      | .ok raw =>
        match decodeParamsResponse raw with
        | some (.obj kvs) => kvs
        | _ => []

/-- Step 3: extract parameters (src/main.py lines 211-288). -/
def extract_parameters (cfg : LlmCfg) (st : TraderTextState) : TraderTextState :=
  { st with parameters := extractParamsOf cfg st }

/-- Decimal rendering of a rational that Python would print for the
corresponding float (display model; only string-valued parameters are
rendered in any verified claim). -/
def ratFloatRepr (q : ℚ) : String :=
  match (List.range 31).find? (fun k => 10 ^ k % q.den = 0) with
  | some k =>
    let n : Int := q.num * ((10 ^ k / q.den : ℕ) : Int)
    let a := n.natAbs
    let ip := a / 10 ^ k
    let fp := a % 10 ^ k
    let fs := toString fp
    let padded : List Char := List.replicate (k - fs.length) '0' ++ fs.data
    let frac : List Char := (padded.reverse.dropWhile (· == '0')).reverse
    (if n < 0 then "-" else "") ++ toString ip ++ "." ++
      (if frac.isEmpty then "0" else (⟨frac⟩ : String))
  | none => toString q.num ++ "/" ++ toString q.den

/-- Model of Python `str()` applied to a JSON-decoded value inside an
f-string (non-scalar cases are a coarse display model; no verified claim
renders them). -/
def pyStrJVal : JVal → String
  | .str s => s
  | .null => "None"
  | .bool true => "True"
  | .bool false => "False"
  | .jint n => toString n
  | .jfloat q => ratFloatRepr q
  | .arr _ => "[...]"
  | .obj _ => "\x7b...\x7d"

/-- Step 4: render structured output (src/main.py lines 290-325).  The
result is `none` exactly when Python would raise (`.capitalize()` on a
non-string urgency value). -/
def generate_structured_output (st : TraderTextState) : Option TraderTextState :=
  let params := st.parameters
  match st.detected_algo with
  | none =>
    some { st with structured_output := "Custom execution: " ++ st.input_text,
                   confidence := 0.5 }
  | some algo =>
    if algo = "" then
      some { st with structured_output := "Custom execution: " ++ st.input_text,
                     confidence := 0.5 }
    else if algo = "vwap" then
      let end_time := (objGet params "end_time").getD (.str "16:00")
      let auctions :=
        if jvalTruthy ((objGet params "include_auctions").getD .null)
        then " on all auctions" else ""
      some { st with
        structured_output := "VWAP Market Close [" ++ pyStrJVal end_time ++ "]" ++ auctions,
        confidence := 0.95 }
    else if algo = "twap" then
      let duration := (objGet params "duration").getD (.str "full day")
      some { st with
        structured_output := "TWAP execution over " ++ pyStrJVal duration,
        confidence := 0.92 }
    else if algo = "pov" then
      let rate := (objGet params "participation_rate").getD (.str "10%")
      some { st with
        structured_output := "POV " ++ pyStrJVal rate ++ " participation rate",
        confidence := 0.90 }
    else if algo = "implementation_shortfall" then
      match (objGet params "urgency").getD (.str "medium") with
      | .str u =>
        some { st with
          structured_output := "Implementation Shortfall - " ++ pyCapitalize u ++
            " urgency profile",
          confidence := 0.88 }
      | _ => none
    else
      some { st with structured_output := "Custom execution: " ++ st.input_text,
                     confidence := 0.7 }

/-- The compiled LangGraph workflow: the four stages in fixed order
(src/main.py lines 327-344). -/
def run_trader_pipeline (cfg : LlmCfg) (text : String) : Option TraderTextState :=
  generate_structured_output
    (extract_parameters cfg (detect_algorithm cfg (normalize_input (initTraderState text))))

/-- Backend-unavailable configuration (rule-based path everywhere). -/
def ruleCfg : LlmCfg := ⟨false, .error "", .error ""⟩

/-! ## Autocomplete -/

/-- The fallback suggestion table, in insertion order
(src/main.py lines 536-545). -/
def suggestions_map : List (String × List String) :=
  [("vwap", ["VWAP Market Close", "VWAP Market Close 16:00", "VWAP with auctions"]),
   ("twap", ["TWAP over 2 hours", "TWAP over trading day", "TWAP 1 hour execution"]),
   ("pov", ["POV 10% participation", "POV 15% participation rate", "POV 5% target"]),
   ("aggr", ["aggressive execution required", "aggressive - minimize slippage"]),
   ("urgent", ["urgent - minimize market impact", "urgent execution needed"]),
   ("client", ["Client requests immediate execution", "Client confirmed price tolerance"]),
   ("priority", ["Priority order - high net worth client", "Priority - institutional client"]),
   ("rebal", ["Part of portfolio rebalancing strategy", "Rebalancing trade - no rush"])]

/-- First key the input starts with selects its list, filtered to the
suggestions that start (case-insensitively) with the input. -/
def lookupSuggestions : List (String × List String) → String → List String
  | [], _ => []
  | (key, sugs) :: rest, tl =>
    if pyStartsWith tl key then sugs.filter (fun s => pyStartsWith (pyLower s) tl)
    else lookupSuggestions rest tl

/-- Rule-based autocomplete (src/main.py lines 534-553). -/
def get_autocomplete_suggestions_fallback (text : String) : List String :=
  lookupSuggestions suggestions_map (pyStrip (pyLower text))

/-- Model-backed autocomplete (src/main.py lines 495-532): inputs shorter
than 3 characters or an unavailable backend use the fallback; otherwise the
model's stripped response is returned as the single suggestion when
nonempty. -/
def get_autocomplete_suggestions_with_llm (available : Bool) (text : String)
    (resp : Except String String) : List String :=
  if !available || text.length < 3 then get_autocomplete_suggestions_fallback text
  else
    match resp with
    | .error _ => get_autocomplete_suggestions_fallback text
    | .ok raw =>
      let suggestion := pyStrip raw
      if suggestion = "" then [] else [suggestion]

/-! # Lemmas and claim theorems -/

/-! ## Character-level lemmas for the normalizer -/

lemma char_toNat_ofNat_lt (n : Nat) (h : n < 55296) : (Char.ofNat n).toNat = n := by
  unfold Char.ofNat
  rw [dif_pos (Or.inl h : n.isValidChar)]
  simp [Char.ofNatAux, Char.toNat, UInt32.toNat, BitVec.toNat_ofNatLt]

lemma toLower_toNat_of_upper (c : Char) (h1 : 65 ≤ c.toNat) (h2 : c.toNat ≤ 90) :
    (Char.toLower c).toNat = c.toNat + 32 := by
  unfold Char.toLower
  rw [if_pos ⟨h1, h2⟩]
  exact char_toNat_ofNat_lt _ (by omega)

lemma toLower_eq_self (c : Char) (h : ¬(65 ≤ c.toNat ∧ c.toNat ≤ 90)) :
    Char.toLower c = c := by
  unfold Char.toLower
  rw [if_neg h]

lemma pyWs_false_of_toNat (c : Char) (h : 33 ≤ c.toNat) : pyWs c = false := by
  simp only [pyWs, Bool.or_eq_false_iff, beq_eq_false_iff_ne, ne_eq]
  omega

/-- The whitespace predicate is invariant under lower-casing. -/
lemma pyWs_pyLowerChar (c : Char) : pyWs (pyLowerChar c) = pyWs c := by
  by_cases h : 65 ≤ c.toNat ∧ c.toNat ≤ 90
  · rw [pyWs_false_of_toNat c (by omega)]
    apply pyWs_false_of_toNat
    rw [show pyLowerChar c = Char.toLower c from rfl,
      toLower_toNat_of_upper c h.1 h.2]
    omega
  · rw [show pyLowerChar c = Char.toLower c from rfl, toLower_eq_self c h]

/-- ASCII lower-casing is idempotent on characters. -/
lemma pyLowerChar_idem (c : Char) : pyLowerChar (pyLowerChar c) = pyLowerChar c := by
  show Char.toLower (Char.toLower c) = Char.toLower c
  by_cases h : 65 ≤ c.toNat ∧ c.toNat ≤ 90
  · have hn : (Char.toLower c).toNat = c.toNat + 32 := toLower_toNat_of_upper c h.1 h.2
    exact toLower_eq_self _ (by omega)
  · rw [toLower_eq_self c h]
    exact toLower_eq_self c h

/-! ## List-level lemmas for strip/lower commutation -/

lemma dropWhile_map_pyLower (l : List Char) :
    (l.map pyLowerChar).dropWhile pyWs = (l.dropWhile pyWs).map pyLowerChar := by
  induction l with
  | nil => rfl
  | cons c t ih =>
    simp only [List.map_cons, List.dropWhile_cons, pyWs_pyLowerChar]
    by_cases h : pyWs c
    · simp [h, ih]
    · simp [h]

lemma dropWhile_idem (p : Char → Bool) (l : List Char) :
    (l.dropWhile p).dropWhile p = l.dropWhile p := by
  induction l with
  | nil => rfl
  | cons c t ih =>
    by_cases h : p c
    · simp [List.dropWhile_cons, h, ih]
    · simp [List.dropWhile_cons, h]

lemma dropWhile_append_char (p : Char → Bool) (l₁ l₂ : List Char) :
    (l₁ ++ l₂).dropWhile p =
      if (l₁.dropWhile p).isEmpty then l₂.dropWhile p else l₁.dropWhile p ++ l₂ := by
  induction l₁ with
  | nil => simp
  | cons c t ih =>
    by_cases h : p c
    · simpa [List.dropWhile_cons, h] using ih
    · simp [List.dropWhile_cons, h]

lemma dropWhile_head_false (p : Char → Bool) (l : List Char) (c : Char) (t : List Char)
    (h : l.dropWhile p = c :: t) : p c = false := by
  induction l with
  | nil => simp at h
  | cons a l ih =>
    rw [List.dropWhile_cons] at h
    by_cases ha : p a
    · rw [if_pos ha] at h
      exact ih h
    · rw [if_neg ha] at h
      cases h
      simpa using ha

lemma trimRev_idem (l : List Char) : trimRev (trimRev l) = trimRev l := by
  unfold trimRev
  rw [List.reverse_reverse, dropWhile_idem]

/-- Dropping leading whitespace is a no-op on `trimRev (c :: t)` when `c` is
not whitespace. -/
lemma dropWhile_trimRev_cons (c : Char) (t : List Char) (hc : pyWs c = false) :
    (trimRev (c :: t)).dropWhile pyWs = trimRev (c :: t) := by
  unfold trimRev
  rw [show (c :: t).reverse = t.reverse ++ [c] by simp, dropWhile_append_char]
  by_cases he : (t.reverse.dropWhile pyWs).isEmpty
  · rw [if_pos he]
    simp [List.dropWhile_cons, hc]
  · rw [if_neg he, List.reverse_append]
    simp [List.dropWhile_cons, hc]

/-- Stripping is idempotent at the list level. -/
lemma pyStripL_idem (l : List Char) : pyStripL (pyStripL l) = pyStripL l := by
  show pyStripL (trimRev (l.dropWhile pyWs)) = trimRev (l.dropWhile pyWs)
  cases h : l.dropWhile pyWs with
  | nil => simp [pyStripL, trimRev]
  | cons c t =>
    have hc : pyWs c = false := dropWhile_head_false pyWs l c t h
    show trimRev ((trimRev (c :: t)).dropWhile pyWs) = trimRev (c :: t)
    rw [dropWhile_trimRev_cons c t hc, trimRev_idem]

lemma trimRev_map_pyLower (m : List Char) :
    trimRev (m.map pyLowerChar) = (trimRev m).map pyLowerChar := by
  unfold trimRev
  rw [show (m.map pyLowerChar).reverse = m.reverse.map pyLowerChar by simp,
    dropWhile_map_pyLower]
  simp

/-- Lower-casing commutes with stripping at the list level. -/
lemma pyStripL_map_pyLower (l : List Char) :
    pyStripL (l.map pyLowerChar) = (pyStripL l).map pyLowerChar := by
  show trimRev ((l.map pyLowerChar).dropWhile pyWs) = _
  rw [dropWhile_map_pyLower, trimRev_map_pyLower]
  rfl

/-- Claim C10: the text normalizer (strip then lowercase) is idempotent:
for every string `x`, `normalizeText (normalizeText x) = normalizeText x`.
Totality is by construction (`normalizeText` is a total Lean function). -/
theorem c10_normalize_idempotent (x : String) :
    normalizeText (normalizeText x) = normalizeText x := by
  apply String.ext
  show (pyStripL ((pyStripL x.data).map pyLowerChar)).map pyLowerChar =
    (pyStripL x.data).map pyLowerChar
  rw [pyStripL_map_pyLower, pyStripL_idem, List.map_map]
  have hf : pyLowerChar ∘ pyLowerChar = pyLowerChar := funext pyLowerChar_idem
  rw [hf]

/-! ## Claim C1: rule-based pipeline on "TWAP over 2 hours" -/

/-- Claim C1 (amended): on the rule-based path, input "TWAP over 2 hours"
yields `detected_algorithm = twap`, `parameters.duration = "2 hour"` (the
regex alternation `(hour|hr|minute|min)` captures the unit without the
plural `s`), and structured output "TWAP execution over 2 hour". -/
theorem c1_twap_duration_amended :
    (run_trader_pipeline ruleCfg "TWAP over 2 hours").map TraderTextState.detected_algo
      = some (some "twap") ∧
    (run_trader_pipeline ruleCfg "TWAP over 2 hours").map
      (fun st => objGet st.parameters "duration") = some (some (JVal.str "2 hour")) ∧
    (run_trader_pipeline ruleCfg "TWAP over 2 hours").map TraderTextState.structured_output
      = some "TWAP execution over 2 hour" :=
  ⟨rfl, rfl, rfl⟩

/-- Claim C1 counterexample: the pipeline renders "2 hour", not the
claimed "2 hours", so `parameters.duration` and the structured output both
differ from the claim. -/
theorem c1_twap_duration_counterexample :
    (run_trader_pipeline ruleCfg "TWAP over 2 hours").map
      (fun st => objGet st.parameters "duration") = some (some (JVal.str "2 hour")) ∧
    (run_trader_pipeline ruleCfg "TWAP over 2 hours").map TraderTextState.structured_output
      = some "TWAP execution over 2 hour" ∧
    ("2 hour" : String) ≠ "2 hours" ∧
    ("TWAP execution over 2 hour" : String) ≠ "TWAP execution over 2 hours" :=
  ⟨rfl, rfl, by decide, by decide⟩

/-! ## Claim C2: model-backed algorithm detection token handling -/

/-- Claim C2 (amended): a transport failure or a response with no
`ALGORITHM: <token>` line yields `detected_algo = none`, and a captured
token equal to `none` (case-insensitively) maps to `none`; but any other
captured token — whether or not it names one of the four algorithms — is
lower-cased and passed through as the detected algorithm. -/
theorem c2_algo_token_handling :
    (∀ (st : TraderTextState) (extr : Except String String) (e : String),
      (detect_algorithm ⟨true, .error e, extr⟩ st).detected_algo = none ∧
      (detect_algorithm ⟨true, .error e, extr⟩ st).reasoning = "Error: " ++ e) ∧
    (∀ raw : String, captureAlgorithmToken (pyStrip raw).data = none →
      llmAlgoOfResponse raw = none) ∧
    (∀ raw tok, captureAlgorithmToken (pyStrip raw).data = some tok →
      pyLower tok = "none" → llmAlgoOfResponse raw = none) ∧
    (∀ raw tok, captureAlgorithmToken (pyStrip raw).data = some tok →
      pyLower tok ≠ "none" → llmAlgoOfResponse raw = some (pyLower tok)) := by
  refine ⟨fun st extr e => ⟨rfl, rfl⟩, fun raw h => ?_, fun raw tok h h2 => ?_,
    fun raw tok h h2 => ?_⟩
  · unfold llmAlgoOfResponse
    rw [h]
  · unfold llmAlgoOfResponse
    rw [h]
    simp [h2]
  · unfold llmAlgoOfResponse
    rw [h]
    simp [h2]

/-- Claim C2 witness: a well-formed response with token `twap` detects
`twap`. -/
theorem c2_algo_token_handling_witness :
    llmAlgoOfResponse "ALGORITHM: twap" = some "twap" :=
  c2_algo_token_handling.2.2.2 "ALGORITHM: twap" "twap" rfl (by decide)

/-- Claim C2 counterexample: the token `banana` is not one of the five
accepted tokens, yet the detector passes it through as the detected
algorithm instead of mapping it to none. -/
theorem c2_unknown_token_counterexample :
    llmAlgoOfResponse "ALGORITHM: banana" = some "banana" ∧
    "banana" ∉ ["vwap", "twap", "pov", "implementation_shortfall", "none"] ∧
    (detect_algorithm ⟨true, .ok "ALGORITHM: banana", .error ""⟩
      (normalize_input (initTraderState "run it"))).detected_algo = some "banana" :=
  ⟨rfl, by decide, rfl⟩

/-! ## Claim C7: rule-based order parser example -/

/-- Claim C7: the rule-based order extractor on
"Buy 100 shares of AAPL at $180.50 GTC" returns symbol AAPL, quantity 100,
price 180.50, time-in-force GTC and contact method phone. -/
theorem c7_fallback_order_example :
    (parse_natural_language_order_fallback "Buy 100 shares of AAPL at $180.50 GTC").security
      = some ⟨"AAPL", "NASDAQ", "USD", "Apple Inc.", 178.50⟩ ∧
    (parse_natural_language_order_fallback "Buy 100 shares of AAPL at $180.50 GTC").quantity
      = some 100 ∧
    (parse_natural_language_order_fallback "Buy 100 shares of AAPL at $180.50 GTC").price
      = some (180.50 : ℚ) ∧
    (parse_natural_language_order_fallback "Buy 100 shares of AAPL at $180.50 GTC").time_in_force
      = TimeInForce.GTC ∧
    (parse_natural_language_order_fallback "Buy 100 shares of AAPL at $180.50 GTC").contact_method
      = ContactMethod.phone := by
  refine ⟨rfl, rfl, ?_, rfl, rfl⟩
  have h : (parse_natural_language_order_fallback "Buy 100 shares of AAPL at $180.50 GTC").price
      = some (qOfParts ['1', '8', '0'] ['5', '0']) := rfl
  rw [h]
  unfold qOfParts
  rw [show digitsToNat ['1', '8', '0'] = 180 from rfl,
    show digitsToNat ['5', '0'] = 50 from rfl,
    show (['5', '0'] : List Char).length = 2 from rfl]
  norm_num

/-! ## Claim C8: rule-based detection priority -/

/-- Claim C8: rule-based algorithm detection checks, in priority order with
first match winning: "vwap", then "twap", then "pov"/"participation", then
"aggressive"/"urgent"/"shortfall", else none; in particular any text
containing "vwap" (so also one containing both "vwap" and "twap") detects
vwap. -/
theorem c8_rule_detection_priority (text : String) :
    (pyContains text "vwap" = true → detectRuleBased text = some "vwap") ∧
    (pyContains text "vwap" = false → pyContains text "twap" = true →
      detectRuleBased text = some "twap") ∧
    (pyContains text "vwap" = false → pyContains text "twap" = false →
      (pyContains text "pov" = true ∨ pyContains text "participation" = true) →
      detectRuleBased text = some "pov") ∧
    (pyContains text "vwap" = false → pyContains text "twap" = false →
      pyContains text "pov" = false → pyContains text "participation" = false →
      (pyContains text "aggressive" = true ∨ pyContains text "urgent" = true ∨
        pyContains text "shortfall" = true) →
      detectRuleBased text = some "implementation_shortfall") ∧
    (pyContains text "vwap" = false → pyContains text "twap" = false →
      pyContains text "pov" = false → pyContains text "participation" = false →
      pyContains text "aggressive" = false → pyContains text "urgent" = false →
      pyContains text "shortfall" = false → detectRuleBased text = none) := by
  unfold detectRuleBased
  refine ⟨?_, ?_, ?_, ?_, ?_⟩
  · intro h1
    simp [h1]
  · intro h1 h2
    simp [h1, h2]
  · intro h1 h2 h3
    rcases h3 with h3 | h3 <;> simp [h1, h2, h3]
  · intro h1 h2 h3 h4 h5
    rcases h5 with h5 | h5 | h5 <;> simp [h1, h2, h3, h4, h5]
  · intro h1 h2 h3 h4 h5 h6 h7
    simp [h1, h2, h3, h4, h5, h6, h7]

/-- Claim C8 witness: a text containing both "vwap" and "twap" detects
vwap (first match wins). -/
theorem c8_rule_detection_priority_witness :
    detectRuleBased "use vwap and twap" = some "vwap" :=
  (c8_rule_detection_priority "use vwap and twap").1 (by decide)

/-! ## Claim C4: model-path extraction failure yields an empty mapping -/

/-- Claim C4: with the model backend available and an algorithm detected,
a transport failure of the parameter-extraction call, or a response whose
JSON span cannot be located or decoded, yields an empty parameter mapping
(never the rule-based defaults). -/
theorem c4_extraction_failure_empty (st : TraderTextState) (a : String)
    (dr : Except String String) (e : String)
    (ha : st.detected_algo = some a) :
    (extract_parameters ⟨true, dr, .error e⟩ st).parameters = [] ∧
    (∀ raw : String, decodeParamsResponse raw = none →
      (extract_parameters ⟨true, dr, .ok raw⟩ st).parameters = []) := by
  constructor
  · show extractParamsOf ⟨true, dr, .error e⟩ st = []
    unfold extractParamsOf
    rw [ha]
    simp
  · intro raw h
    show extractParamsOf ⟨true, dr, .ok raw⟩ st = []
    unfold extractParamsOf
    rw [ha]
    simp [h]

/-- Claim C4 witness: with `twap` detected, a transport error and the
response "no json here" both yield an empty mapping. -/
theorem c4_extraction_failure_empty_witness :
    (extract_parameters ⟨true, .error "", .error "boom"⟩
      ⟨"x", "x", some "twap", [("k", JVal.null)], "", 0, ""⟩).parameters = [] ∧
    (extract_parameters ⟨true, .error "", .ok "no json here"⟩
      ⟨"x", "x", some "twap", [("k", JVal.null)], "", 0, ""⟩).parameters = [] :=
  ⟨(c4_extraction_failure_empty ⟨"x", "x", some "twap", [("k", JVal.null)], "", 0, ""⟩
      "twap" (.error "") "boom" rfl).1,
   (c4_extraction_failure_empty ⟨"x", "x", some "twap", [("k", JVal.null)], "", 0, ""⟩
      "twap" (.error "") "boom" rfl).2 "no json here" rfl⟩

/-! ## Claim C5: autocomplete suggestions extend the input -/

lemma lookupSuggestions_extends (L : List (String × List String)) (tl s : String)
    (h : s ∈ lookupSuggestions L tl) : pyStartsWith (pyLower s) tl = true := by
  induction L with
  | nil => simp [lookupSuggestions] at h
  | cons kv rest ih =>
    obtain ⟨key, sugs⟩ := kv
    rw [lookupSuggestions] at h
    by_cases hk : pyStartsWith tl key
    · rw [if_pos hk] at h
      exact (List.mem_filter.1 h).2
    · rw [if_neg hk] at h
      exact ih h

/-- Claim C5 (amended): on the rule-based path every returned suggestion
starts, case-insensitively, with the trimmed lower-cased input.  (On the
model-backed path the model's trimmed nonempty response is returned without
any prefix check, so it need not extend the input — see the
counterexample.) -/
theorem c5_fallback_suggestions_extend_input (text s : String)
    (h : s ∈ get_autocomplete_suggestions_fallback text) :
    pyStartsWith (pyLower s) (pyStrip (pyLower text)) = true :=
  lookupSuggestions_extends suggestions_map _ s h

/-- Claim C5 witness: "TWAP over 2 hours" is suggested for input "twap"
and indeed extends it. -/
theorem c5_fallback_suggestions_extend_input_witness :
    pyStartsWith (pyLower "TWAP over 2 hours") (pyStrip (pyLower "twap")) = true :=
  c5_fallback_suggestions_extend_input "twap" "TWAP over 2 hours" (by decide)

/-- Claim C5 counterexample: on the model-backed path the response "Hello"
is returned verbatim for input "xyz" although it does not start with the
input; and on the rule-based path a padded input " vwap" yields suggestions
that do not start with the raw input either. -/
theorem c5_llm_suggestion_counterexample :
    get_autocomplete_suggestions_with_llm true "xyz" (.ok "Hello") = ["Hello"] ∧
    pyStartsWith (pyLower "Hello") (pyLower "xyz") = false ∧
    "VWAP Market Close" ∈ get_autocomplete_suggestions_fallback " vwap" ∧
    pyStartsWith (pyLower "VWAP Market Close") (pyLower " vwap") = false :=
  ⟨rfl, rfl, by decide, rfl⟩

/-! ## Claim C9: no detected algorithm forces empty parameters -/

lemma generate_preserves (st st2 : TraderTextState)
    (h : generate_structured_output st = some st2) :
    st2.detected_algo = st.detected_algo ∧ st2.parameters = st.parameters := by
  unfold generate_structured_output at h
  rcases hd : st.detected_algo with _ | algo
  · rw [hd] at h
    injection h with h
    subst h
    exact ⟨rfl, rfl⟩
  · rw [hd] at h
    dsimp only at h
    split_ifs at h
    all_goals try (split at h)
    all_goals
      first
      | (injection h with h
         subst h
         exact ⟨rfl, rfl⟩)
      | exact absurd h (by simp)

/-- Claim C9: for every configuration and input, when the completed
pipeline reports no detected algorithm the parameter mapping is empty; and
stage 3 neither consults the backend nor depends on its response when the
detected algorithm is none (the oracle response is irrelevant, and the
mapping is empty). -/
theorem c9_none_algo_empty_params :
    (∀ (cfg : LlmCfg) (input : String) (st : TraderTextState),
      run_trader_pipeline cfg input = some st →
      st.detected_algo = none → st.parameters = []) ∧
    (∀ (av : Bool) (dr e1 e2 : Except String String) (st : TraderTextState),
      st.detected_algo = none →
      extract_parameters ⟨av, dr, e1⟩ st = extract_parameters ⟨av, dr, e2⟩ st ∧
      (extract_parameters ⟨av, dr, e1⟩ st).parameters = []) := by
  constructor
  · intro cfg input st hrun hnone
    have hpres := generate_preserves _ _ hrun
    have hdet : (extract_parameters cfg
        (detect_algorithm cfg (normalize_input (initTraderState input)))).detected_algo
        = (detect_algorithm cfg (normalize_input (initTraderState input))).detected_algo := rfl
    have h2 : (detect_algorithm cfg (normalize_input (initTraderState input))).detected_algo
        = none := by
      rw [← hdet, ← hpres.1]
      exact hnone
    rw [hpres.2]
    show extractParamsOf cfg (detect_algorithm cfg (normalize_input (initTraderState input))) = []
    unfold extractParamsOf
    rw [h2]
  · intro av dr e1 e2 st hnone
    constructor
    · show ({ st with parameters := extractParamsOf ⟨av, dr, e1⟩ st } : TraderTextState)
        = { st with parameters := extractParamsOf ⟨av, dr, e2⟩ st }
      have hp : ∀ e : Except String String, extractParamsOf ⟨av, dr, e⟩ st = [] := by
        intro e
        unfold extractParamsOf
        rw [hnone]
      rw [hp e1, hp e2]
    · show extractParamsOf ⟨av, dr, e1⟩ st = []
      unfold extractParamsOf
      rw [hnone]

/-- Claim C9 witness: the rule-based pipeline on "hello there" detects no
algorithm and ends with empty parameters. -/
theorem c9_none_algo_empty_params_witness :
    (run_trader_pipeline ruleCfg "hello there").map TraderTextState.parameters
      = some [] := by
  have h := c9_none_algo_empty_params.1 ruleCfg "hello there"
    ⟨"hello there", "hello there", none, [], "Custom execution: hello there", 0.5,
      "Rule-based detection (LLM not available)"⟩ rfl rfl
  exact congrArg some h

/-! ## Claim C6: unrecognized symbol maps security to none -/

/-- Claim C6 (amended): for every model response that decodes to a JSON
object whose `symbol` entry is absent, null, falsy, or a string not naming
a catalog security, and whose remaining fields build into an order form
without raising, the model-backed parser returns exactly that form and its
security is none.  (When building raises — e.g. an invalid `time_in_force`
value — the entire result instead falls back to the rule-based extractor on
the input text, which may attach a catalog security found in the text; see
the counterexample.) -/
theorem c6_unknown_symbol_security_none (text raw : String)
    (kvs : List (String × JVal)) (form : OrderFormModel)
    (hdec : decodeOrderResponse raw = some kvs)
    (hbuild : buildOrderForm kvs = some form)
    (hsym : ∀ s, objGet kvs "symbol" = some (JVal.str s) → dbLookup (pyUpper s) = none) :
    parse_natural_language_order_with_llm true text (.ok raw) = form ∧
    form.security = none := by
  constructor
  · simp [parse_natural_language_order_with_llm, hdec, hbuild]
  · unfold buildOrderForm at hbuild
    cases hsec : secOfSymbol (objGet kvs "symbol") with
    | none =>
      rw [hsec] at hbuild
      exact absurd hbuild (by simp)
    | some sec =>
      rw [hsec] at hbuild
      dsimp only at hbuild
      have hsecnone : sec = none := by
        cases hv : objGet kvs "symbol" with
        | none =>
          rw [hv] at hsec
          injection hsec with hsec
          exact hsec.symm
        | some jv =>
          rw [hv] at hsec
          simp only [secOfSymbol] at hsec
          by_cases ht : jvalTruthy jv
          · rw [if_pos ht] at hsec
            cases jv with
            | str s =>
              injection hsec with hsec
              rw [← hsec]
              exact hsym s hv
            | null => exact absurd hsec (by simp)
            | bool b => exact absurd hsec (by simp)
            | jint n => exact absurd hsec (by simp)
            | jfloat q => exact absurd hsec (by simp)
            | arr xs => exact absurd hsec (by simp)
            | obj kvs2 => exact absurd hsec (by simp)
          · rw [if_neg ht] at hsec
            injection hsec with hsec
            exact hsec.symm
      subst hsecnone
      cases hq : coerceOptInt (objGet kvs "quantity") with
      | none =>
        rw [hq] at hbuild
        exact absurd hbuild (by simp)
      | some q =>
        rw [hq] at hbuild
        dsimp only at hbuild
        cases hp : coerceOptFloat (objGet kvs "price") with
        | none =>
          rw [hp] at hbuild
          exact absurd hbuild (by simp)
        | some p =>
          rw [hp] at hbuild
          dsimp only at hbuild
          cases htf : coerceTif (objGet kvs "time_in_force") with
          | none =>
            rw [htf] at hbuild
            exact absurd hbuild (by simp)
          | some tif =>
            rw [htf] at hbuild
            dsimp only at hbuild
            cases hcm : coerceContact (objGet kvs "contact_method") with
            | none =>
              rw [hcm] at hbuild
              exact absurd hbuild (by simp)
            | some cm =>
              rw [hcm] at hbuild
              dsimp only at hbuild
              injection hbuild with hbuild
              rw [← hbuild]

/-- Claim C6 witness: a decoded object with the unrecognized symbol `ZZZZ`
and no other fields builds a form whose security is none, and that form is
returned. -/
theorem c6_unknown_symbol_security_none_witness :
    parse_natural_language_order_with_llm true "order text"
      (.ok "\x7b\"symbol\": \"ZZZZ\"\x7d")
      = ⟨none, .phone, none, none, .DAY, none, ""⟩ ∧
    (⟨none, .phone, none, none, .DAY, none, ""⟩ : OrderFormModel).security = none :=
  c6_unknown_symbol_security_none "order text" "\x7b\"symbol\": \"ZZZZ\"\x7d"
    [("symbol", JVal.str "ZZZZ")] ⟨none, .phone, none, none, .DAY, none, ""⟩ rfl rfl
    (by
      intro s hs
      have h2 : some (JVal.str "ZZZZ") = some (JVal.str s) := hs
      cases h2
      rfl)

/-- Claim C6 counterexample: a response that decodes to JSON with the
non-catalog symbol `ZZZZ` but an invalid `time_in_force` makes the order
form constructor raise, so the whole result falls back to the rule-based
extractor on the input text — which attaches the catalog security AAPL
found there.  The returned security is therefore not none, contradicting
the claim's universal statement. -/
theorem c6_enum_failure_counterexample :
    decodeOrderResponse "\x7b\"symbol\": \"ZZZZ\", \"time_in_force\": \"NEVER\"\x7d"
      = some [("symbol", JVal.str "ZZZZ"), ("time_in_force", JVal.str "NEVER")] ∧
    dbLookup "ZZZZ" = none ∧
    (parse_natural_language_order_with_llm true "buy 100 shares of AAPL"
      (.ok "\x7b\"symbol\": \"ZZZZ\", \"time_in_force\": \"NEVER\"\x7d")).security
      = some ⟨"AAPL", "NASDAQ", "USD", "Apple Inc.", 178.50⟩ ∧
    (some ⟨"AAPL", "NASDAQ", "USD", "Apple Inc.", 178.50⟩ : Option SecurityInfo) ≠ none :=
  ⟨rfl, rfl, rfl, by simp⟩

/-! ## Claim C3: the decoded span is greedy, not balanced -/

lemma firstIdx_cons_true (p : Char → Bool) (c : Char) (t : List Char) (h : p c = true) :
    firstIdx p (c :: t) = some 0 := by
  simp [firstIdx, h]

lemma firstIdx_append_none (p : Char → Bool) (xs ys : List Char)
    (h : ∀ x ∈ xs, p x = false) :
    firstIdx p (xs ++ ys) = (firstIdx p ys).map (· + xs.length) := by
  induction xs with
  | nil =>
    cases hy : firstIdx p ys <;> simp [hy]
  | cons c t ih =>
    rw [List.cons_append]
    rw [show firstIdx p (c :: (t ++ ys))
      = if p c then some 0 else (firstIdx p (t ++ ys)).map (· + 1) from rfl]
    rw [if_neg (by rw [h c (by simp)]; simp)]
    rw [ih (fun x hx => h x (by simp [hx]))]
    cases hy : firstIdx p ys with
    | none => simp [hy]
    | some v => simp [hy, Nat.add_assoc]

/-- Claim C3 (amended): the span handed to `json.loads` runs from the
first opening brace of the response to its last closing brace (the greedy
`\{.*\}` match), not to the first balanced closing brace: for every
decomposition of the text as `a ++ "\x7b" ++ m ++ "\x7d" ++ z` with no
opening brace in `a` and no closing brace in `z`, the extracted span is
exactly `"\x7b" ++ m ++ "\x7d"`, whatever braces `m` contains. -/
theorem c3_json_span_greedy (a m z : String)
    (ha : ∀ c ∈ a.data, (c == '\x7b') = false)
    (hz : ∀ c ∈ z.data, (c == '\x7d') = false) :
    extractJsonSpan (a ++ "\x7b" ++ m ++ "\x7d" ++ z) = some ("\x7b" ++ m ++ "\x7d") := by
  have hdata : (a ++ "\x7b" ++ m ++ "\x7d" ++ z).data
      = a.data ++ '\x7b' :: (m.data ++ '\x7d' :: z.data) := by
    simp [String.data_append]
  unfold extractJsonSpan
  rw [hdata]
  have h1 : firstIdx (· == '\x7b') (a.data ++ '\x7b' :: (m.data ++ '\x7d' :: z.data))
      = some a.data.length := by
    rw [firstIdx_append_none _ _ _ ha, firstIdx_cons_true _ _ _ (by simp)]
    simp
  have hrev : (a.data ++ '\x7b' :: (m.data ++ '\x7d' :: z.data)).reverse
      = z.data.reverse ++ '\x7d' :: (m.data.reverse ++ '\x7b' :: a.data.reverse) := by
    simp
  have h2 : firstIdx (· == '\x7d')
      ((a.data ++ '\x7b' :: (m.data ++ '\x7d' :: z.data)).reverse)
      = some z.data.length := by
    rw [hrev, firstIdx_append_none _ _ _ (fun x hx => hz x (List.mem_reverse.1 hx)),
      firstIdx_cons_true _ _ _ (by simp)]
    simp
  simp only [extractJsonSpanL, h1, h2]
  have hlen : (a.data ++ '\x7b' :: (m.data ++ '\x7d' :: z.data)).length
      = a.data.length + m.data.length + z.data.length + 2 := by
    simp
    omega
  rw [hlen]
  rw [if_pos (by omega)]
  have harith : a.data.length + m.data.length + z.data.length + 2 - 1 - z.data.length
      - a.data.length + 1 = m.data.length + 1 + 1 := by omega
  rw [harith]
  rw [List.drop_left]
  rw [List.take_succ_cons]
  rw [show m.data.length + 1 = m.data.length + 1 from rfl]
  rw [List.take_append 1]
  have hrhs : ("\x7b" ++ m ++ "\x7d").data = '\x7b' :: (m.data ++ ['\x7d']) := by
    simp [String.data_append]
  refine congrArg some (String.ext ?_)
  rw [hrhs]
  simp

/-- Claim C3 witness: with `m` containing an inner closing and opening
brace, the extracted span runs to the last closing brace of the text. -/
theorem c3_json_span_greedy_witness :
    extractJsonSpan ("x " ++ "\x7b" ++ "\"k\": 0\x7d junk \x7b" ++ "\x7d" ++ " y")
      = some ("\x7b" ++ "\"k\": 0\x7d junk \x7b" ++ "\x7d") :=
  c3_json_span_greedy "x " "\"k\": 0\x7d junk \x7b" " y" (by decide) (by decide)

/-- Claim C3 counterexample: on a response consisting of a valid JSON
object followed by further text with braces, the first balanced span is the
object and decodes fine, but the source's greedy span is the whole text,
whose decode fails, so the extracted parameter mapping is empty rather than
the decoded first object. -/
theorem c3_balanced_span_counterexample :
    specFirstBalancedSpan "\x7b\"a\": 1\x7d and \x7bb\x7d" = some "\x7b\"a\": 1\x7d" ∧
    jsonLoads "\x7b\"a\": 1\x7d" = some (JVal.obj [("a", JVal.jint 1)]) ∧
    extractJsonSpan "\x7b\"a\": 1\x7d and \x7bb\x7d"
      = some "\x7b\"a\": 1\x7d and \x7bb\x7d" ∧
    decodeParamsResponse "\x7b\"a\": 1\x7d and \x7bb\x7d" = none ∧
    (extract_parameters ⟨true, .error "", .ok "\x7b\"a\": 1\x7d and \x7bb\x7d"⟩
      ⟨"x", "x", some "twap", [], "", 0, ""⟩).parameters = [] ∧
    ([] : List (String × JVal)) ≠ [("a", JVal.jint 1)] :=
  ⟨rfl, rfl, rfl, rfl, rfl, by simp⟩
